import Mathlib

/-!
Verification of the wg-portal core against its specification.

The development shallowly embeds the Go source:
  * `internal/auth.go` — credential verifier (double SHA-256) and the
    in-memory session store;
  * the connection orchestrator (`GetStatus`, `GetConnections`,
    `ToggleConnection` and helpers) — external commands (`wg show`,
    `wg-quick up/down`) and the configuration directory are modelled as an
    oracle `World`, and every function additionally returns the trace of
    external invocations it performed.

Machine integers are modelled as `Nat` with explicit reduction `% 2^32`
where overflow matters; byte strings are modelled as `String`/`List Nat`.
-/

namespace WgPortal

/-! ## Bytes, hex encoding, UTF-8 (supporting `encoding/hex` and Go strings) -/

/-- The 32-bit word reduction used throughout the SHA-256 embedding. -/
def w32 (n : Nat) : Nat := n % 4294967296

/-- One lowercase hexadecimal digit, as produced by Go `encoding/hex`. -/
def hexDigit (n : Nat) : Char :=
  if n < 10 then Char.ofNat (48 + n) else Char.ofNat (87 + n)

/-- Embedding of Go `hex.EncodeToString`: two lowercase hex digits per byte. -/
def hexEncode (bs : List Nat) : String :=
  String.mk (bs.foldr (fun b acc => hexDigit ((b >>> 4) &&& 15) :: hexDigit (b &&& 15) :: acc) [])

/-- UTF-8 encoding of a single character (Go strings are UTF-8 byte strings). -/
def utf8Bytes (c : Char) : List Nat :=
  let n := c.toNat
  if n < 128 then [n]
  else if n < 2048 then [192 ||| (n >>> 6), 128 ||| (n &&& 63)]
  else if n < 65536 then
    [224 ||| (n >>> 12), 128 ||| ((n >>> 6) &&& 63), 128 ||| (n &&& 63)]
  else
    [240 ||| (n >>> 18), 128 ||| ((n >>> 12) &&& 63), 128 ||| ((n >>> 6) &&& 63),
     128 ||| (n &&& 63)]

/-- The byte content of a Go string (`[]byte(s)`). -/
def strBytes (s : String) : List Nat :=
  s.data.foldr (fun c acc => utf8Bytes c ++ acc) []

/-! ## SHA-256 (embedding of `crypto/sha256.Sum256`) -/

/-- SHA-256 round constants (FIPS 180-4 `K`, written in decimal). -/
def sha256K : List Nat :=
  [1116352408, 1899447441, 3049323471, 3921009573, 961987163,
   1508970993, 2453635748, 2870763221, 3624381080, 310598401,
   607225278, 1426881987, 1925078388, 2162078206, 2614888103,
   3248222580, 3835390401, 4022224774, 264347078, 604807628,
   770255983, 1249150122, 1555081692, 1996064986, 2554220882,
   2821834349, 2952996808, 3210313671, 3336571891, 3584528711,
   113926993, 338241895, 666307205, 773529912, 1294757372,
   1396182291, 1695183700, 1986661051, 2177026350, 2456956037,
   2730485921, 2820302411, 3259730800, 3345764771, 3516065817,
   3600352804, 4094571909, 275423344, 430227734, 506948616,
   659060556, 883997877, 958139571, 1322822218, 1537002063,
   1747873779, 1955562222, 2024104815, 2227730452, 2361852424,
   2428436474, 2756734187, 3204031479, 3329325298]

/-- SHA-256 initial hash state (FIPS 180-4 `H⁰`, written in decimal). -/
def sha256H0 : List Nat :=
  [1779033703, 3144134277, 1013904242, 2773480762,
   1359893119, 2600822924, 528734635, 1541459225]

/-- Rotate a 32-bit word right by `n` bits. -/
def rotr32 (x n : Nat) : Nat := w32 ((x >>> n) ||| (x <<< (32 - n)))

/-- Big-endian 8-byte encoding of the message bit length. -/
def be64 (n : Nat) : List Nat :=
  [(n >>> 56) &&& 255, (n >>> 48) &&& 255, (n >>> 40) &&& 255, (n >>> 32) &&& 255,
   (n >>> 24) &&& 255, (n >>> 16) &&& 255, (n >>> 8) &&& 255, n &&& 255]

/-- Big-endian 4-byte encoding of a 32-bit word. -/
def be32 (n : Nat) : List Nat :=
  [(n >>> 24) &&& 255, (n >>> 16) &&& 255, (n >>> 8) &&& 255, n &&& 255]

/-- SHA-256 padding: append `0x80`, zero bytes to 56 mod 64, then the
big-endian 64-bit bit length. -/
def padMessage (msg : List Nat) : List Nat :=
  let L := msg.length
  let k := (119 - (L % 64)) % 64
  msg ++ [128] ++ List.replicate k 0 ++ be64 (8 * L)

/-- Group bytes into big-endian 32-bit words. -/
def toWords : List Nat → List Nat
  | b0 :: b1 :: b2 :: b3 :: rest =>
      (b0 <<< 24 ||| b1 <<< 16 ||| b2 <<< 8 ||| b3) :: toWords rest
  | _ => []

/-- The next word of the SHA-256 message schedule, from the last 16 words. -/
def nextScheduleWord (ws : List Nat) : Nat :=
  let i := ws.length
  let g := fun j => ws.getD j 0
  let s0 := rotr32 (g (i - 15)) 7 ^^^ rotr32 (g (i - 15)) 18 ^^^ (g (i - 15) >>> 3)
  let s1 := rotr32 (g (i - 2)) 17 ^^^ rotr32 (g (i - 2)) 19 ^^^ (g (i - 2) >>> 10)
  w32 (g (i - 16) + s0 + g (i - 7) + s1)

/-- Extend the 16-word schedule by `fuel` further words. -/
def extendSchedule (ws : List Nat) : Nat → List Nat
  | 0 => ws
  | n + 1 => extendSchedule (ws ++ [nextScheduleWord ws]) n

/-- One round of the SHA-256 compression function. -/
def sha256Round (regs : List Nat) (wk : Nat × Nat) : List Nat :=
  match regs with
  | [a, b, c, d, e, f, g, h] =>
      let S1 := rotr32 e 6 ^^^ rotr32 e 11 ^^^ rotr32 e 25
      let ch := (e &&& f) ^^^ ((e ^^^ 4294967295) &&& g)
      let temp1 := w32 (h + S1 + ch + wk.2 + wk.1)
      let S0 := rotr32 a 2 ^^^ rotr32 a 13 ^^^ rotr32 a 22
      let maj := (a &&& b) ^^^ (a &&& c) ^^^ (b &&& c)
      let temp2 := w32 (S0 + maj)
      [w32 (temp1 + temp2), a, b, c, w32 (d + temp1), e, f, g]
  | _ => regs

/-- Compress one 64-byte chunk into the running hash state. -/
def compressChunk (hs : List Nat) (chunk : List Nat) : List Nat :=
  let ws := extendSchedule (toWords chunk) 48
  let regs := (ws.zip sha256K).foldl sha256Round hs
  (hs.zip regs).map (fun p => w32 (p.1 + p.2))

/-- Split a (padded) byte list into 64-byte chunks (`fuel` bounds the
number of steps; `chunks64` supplies one unit of fuel per byte, far more
than the number of chunks, so the fuel never runs out). -/
def chunks64Go : Nat → List Nat → List (List Nat)
  | 0, _ => []
  | _, [] => []
  | fuel + 1, l => l.take 64 :: chunks64Go fuel (l.drop 64)

/-- Split a (padded) byte list into 64-byte chunks. -/
def chunks64 (l : List Nat) : List (List Nat) := chunks64Go l.length l

/-- Embedding of Go `sha256.Sum256`: the 32-byte SHA-256 digest of a byte list. -/
def sha256Bytes (msg : List Nat) : List Nat :=
  let hs := (chunks64 (padMessage msg)).foldl compressChunk sha256H0
  hs.foldr (fun h acc => be32 h ++ acc) []

/-! ## Credential verifier (`internal/auth.go`) -/

/-- Embedding of `GeneratePasswordHash`: double SHA-256 with hex encoding in
between (`hex(H(hex(H(password))))`), the pi-hole-compatible scheme. -/
def GeneratePasswordHash (password : String) : String :=
  let first := sha256Bytes (strBytes password)
  let firstHex := hexEncode first
  let second := sha256Bytes (strBytes firstHex)
  hexEncode second

/-- Embedding of `ValidatePassword`: recompute the hash and compare. -/
def ValidatePassword (password hash : String) : Bool :=
  GeneratePasswordHash password == hash

/-! ## Session store (`internal/auth.go`)

Instants of `time.Time` are modelled as `Int` nanoseconds; `t1.After(t2)`
is `t2 < t1`.  The Go store is a mutex-guarded `map[string]*Session`;
the mutex only serializes access and has no effect on any single
operation's sequential semantics, so each method is modelled as a state
transformer on the map (total function `String → Option Session`).
`crypto/rand` is modelled as an entropy oracle passed to `CreateSession`
(`rand.Read` fills 32 bytes or fails). -/

/-- One hour in nanoseconds (`1 * time.Hour`). -/
def hourNs : Int := 3600000000000

/-- Embedding of the `Session` struct. -/
structure Session where
  Expires : Int
deriving DecidableEq, Repr

/-- Embedding of `SessionManager`: the session map (the mutex is elided,
see the section comment). -/
structure SessionManager where
  sessions : String → Option Session

/-- Embedding of `NewSessionManager`'s initial state: an empty map. -/
def emptySessionManager : SessionManager := ⟨fun _ => none⟩

/-- Embedding of `generateSecureToken`: hex-encode 32 random bytes from the
entropy oracle, or propagate the oracle's failure. -/
def generateSecureToken (entropy : Except String (List Nat)) : Except String String :=
  match entropy with
  | .error e => .error e
  | .ok bytes => .ok (hexEncode bytes)

/-- Embedding of `CreateSession`: generate a token, set
`expires = now + 1 hour`, insert, and return `(sessionID, expires)`
together with the updated store; fail only if the entropy oracle fails. -/
def CreateSession (sm : SessionManager) (now : Int)
    (entropy : Except String (List Nat)) :
    Except String (String × Int × SessionManager) :=
  match generateSecureToken entropy with
  | .error e => .error ("failed to generate session ID: " ++ e)
  | .ok sessionID =>
      let expires := now + hourNs
      .ok (sessionID, expires,
        ⟨fun k => if k = sessionID then some ⟨expires⟩ else sm.sessions k⟩)

/-- Embedding of `ValidateSession`: look the token up; absent, or present
with `time.Now().After(session.Expires)` (strictly past expiry), is
invalid.  The method only reads the map, so the returned store is the
input store. -/
def ValidateSession (sm : SessionManager) (now : Int) (sessionID : String) :
    (Option Session × Bool) × SessionManager :=
  match sm.sessions sessionID with
  | none => ((none, false), sm)
  | some session =>
      if session.Expires < now then ((none, false), sm)
      else ((some session, true), sm)

/-- Embedding of `DeleteSession`: `delete(sm.sessions, sessionID)`; Go map
deletion is total (a no-op when the key is absent). -/
def DeleteSession (sm : SessionManager) (sessionID : String) : SessionManager :=
  ⟨fun k => if k = sessionID then none else sm.sessions k⟩

/-- Embedding of one tick of `cleanupExpiredSessions`: remove every entry
whose expiry is strictly in the past. -/
def cleanupExpiredSessionsTick (sm : SessionManager) (now : Int) : SessionManager :=
  ⟨fun k => match sm.sessions k with
    | some s => if s.Expires < now then none else some s
    | none => none⟩

/-! ## Go string primitives used by the orchestrator -/

/-- Go `unicode.IsSpace`: the Unicode White_Space property. -/
def isGoSpace (c : Char) : Bool :=
  let n := c.toNat
  (9 ≤ n && n ≤ 13) || n == 32 || n == 133 || n == 160 || n == 0x1680 ||
  (0x2000 ≤ n && n ≤ 0x200a) || n == 0x2028 || n == 0x2029 || n == 0x202f ||
  n == 0x205f || n == 0x3000

/-- The Go `regexp` character class `\s`, i.e. `[\t\n\f\r ]`. -/
def isRegexSpace (c : Char) : Bool :=
  c == '\t' || c == '\n' || c.toNat == 12 || c.toNat == 13 || c == ' '

/-- Go `strings.TrimSpace`. -/
def goTrimSpace (s : String) : String :=
  String.mk (((s.data.dropWhile isGoSpace).reverse.dropWhile isGoSpace).reverse)

/-- Whether `sub` occurs as a contiguous sublist of the second argument. -/
def listContainsSub (sub : List Char) : List Char → Bool
  | [] => sub.isEmpty
  | c :: t => sub.isPrefixOf (c :: t) || listContainsSub sub t

/-- Go `strings.Contains`: substring test (on valid UTF-8 the byte-level
and character-level infix tests coincide, UTF-8 being self-synchronizing). -/
def goContains (s sub : String) : Bool := listContainsSub sub.data s.data

/-- Go `strings.TrimPrefix`. -/
def goTrimPrefixStr (s pre : String) : String :=
  if pre.data.isPrefixOf s.data then String.mk (s.data.drop pre.data.length) else s

/-- Go `strings.Split`/`strings.SplitSeq` with the single-character
separator `"\n"`: split on every newline, keeping empty pieces
(`"" ↦ [""]`). -/
def splitNl : List Char → List (List Char)
  | [] => [[]]
  | c :: t =>
      if c = '\n' then [] :: splitNl t
      else
        match splitNl t with
        | h :: r => (c :: h) :: r
        | [] => [[c]]

/-- String-level wrapper for `splitNl`. -/
def splitLines (s : String) : List String := (splitNl s.data).map String.mk

/-- Go `strings.Join`. -/
def goJoin (ls : List String) (sep : String) : String :=
  String.mk (List.intercalate sep.data (ls.map String.data))

/-- Go `strings.TrimSuffix`. -/
def goTrimSuffixStr (s suf : String) : String :=
  if suf.data.isSuffixOf s.data then
    String.mk (s.data.take (s.data.length - suf.data.length))
  else s

/-- Go `path/filepath.Base` with separator `/`. -/
def baseName (path : String) : String :=
  if path = "" then "."
  else
    let cs := (path.data.reverse.dropWhile (· = '/')).reverse
    if cs = [] then "/"
    else String.mk ((cs.reverse.takeWhile (· ≠ '/')).reverse)

/-- Go `path/filepath.Ext`: the suffix of the last path element starting at
its final dot, `""` when the last element has no dot. -/
def extName (path : String) : String :=
  let elemRev := path.data.reverse.takeWhile (· ≠ '/')
  if elemRev.contains '.' then
    String.mk ('.' :: (elemRev.takeWhile (· ≠ '.')).reverse)
  else ""

/-! ## Connection orchestrator (wireguard part of `internal`)

External collaborators are an oracle `World`: the configuration directory
listing (`filepath.Glob "/etc/wireguard/*.conf"` — with a constant,
well-formed pattern `Glob` cannot return its only error,
`ErrBadPattern`, so the listing is total), the stdout of `sudo wg show`
(`cmd.Output()`: bytes or an execution error), and per-name results of
`sudo wg-quick down/up` (`cmd.CombinedOutput()`: combined output bytes
plus an optional execution error).  Every operation also returns the
ordered trace of external command invocations it performed. -/

/-- One external command invocation. -/
inductive Invocation where
  | wgShow : Invocation
  | wgQuickDown : String → Invocation
  | wgQuickUp : String → Invocation
deriving DecidableEq, Repr

/-- `true` exactly on `wg-quick down` invocations. -/
def Invocation.isDown : Invocation → Bool
  | .wgQuickDown _ => true
  | _ => false

/-- `true` exactly on `wg-quick up` invocations. -/
def Invocation.isUp : Invocation → Bool
  | .wgQuickUp _ => true
  | _ => false

/-- `true` exactly on activate/deactivate (`wg-quick up`/`down`) invocations. -/
def Invocation.isUpDown (i : Invocation) : Bool := i.isDown || i.isUp

/-- The external world the orchestrator runs against. -/
structure World where
  confFiles : List String
  wgShowResult : Except String String
  wgQuickDownResult : String → String × Option String
  wgQuickUpResult : String → String × Option String

/-- The error taxonomy of the wireguard functions, mirroring the Go error
values they return. -/
inductive WgError where
  | execShow : String → WgError
  | notFound : String → WgError
  | cmdFailed : String → WgError
deriving DecidableEq, Repr

/-- Rendering of a `WgError` as the Go error string. -/
def WgError.message : WgError → String
  | .execShow e => "failed to execute wg show: " ++ e
  | .notFound name => "failed to find connection: " ++ name
  | .cmdFailed e => e

/-- Embedding of the `WireGuardConnection` struct. -/
structure WireGuardConnection where
  Name : String
  Active : Bool
deriving DecidableEq, Repr

/-- Embedding of `showStatus`: run `sudo wg show`, wrapping a failure as
`failed to execute wg show: …`. -/
def showStatus (w : World) : List Invocation × Except WgError String :=
  ([.wgShow],
   match w.wgShowResult with
   | .ok output => .ok output
   | .error e => .error (.execShow e))

/-- The capture of `^interface:\s+(.+)$` on an (already trimmed) line, or
`none` when the regex does not match.  `\s+` is greedy over the Go `\s`
class; when `(.+)` would be left empty the regex engine backtracks one
whitespace character (which `.` then matches), provided `\s+` retains at
least one. -/
def interfaceCapture (t : String) : Option String :=
  if "interface:".data.isPrefixOf t.data then
    let rest := t.data.drop 10
    let ws := rest.takeWhile isRegexSpace
    let cap := rest.drop ws.length
    if ws.length = 0 then none
    else if cap.length ≠ 0 then some (String.mk cap)
    else if 2 ≤ ws.length then some (String.mk [ws.getLastD ' '])
    else none
  else none

/-- The pure parsing step of `getActiveConnections`: each line of the probe
output is trimmed and matched against `interfaceRegex`; the captures are
collected in order. -/
def parseActiveNames (status : String) : List String :=
  (splitLines status).filterMap (fun line => interfaceCapture (goTrimSpace line))

/-- Embedding of `getActiveConnections`: probe `wg show` and parse the
interface names out of its output. -/
def getActiveConnections (w : World) : List Invocation × Except WgError (List String) :=
  let (tr, st) := showStatus w
  (tr, st.map parseActiveNames)

/-- Embedding of `getAllConnections`: list `/etc/wireguard/*.conf` and map
each file to its base name with the extension stripped. -/
def getAllConnections (w : World) : List String :=
  w.confFiles.map (fun f => goTrimSuffixStr (baseName f) (extName f))

/-- Embedding of `GetConnections`: every configured tunnel, flagged active
iff its name occurs in the probed active list (`slices.Contains`). -/
def GetConnections (w : World) :
    List Invocation × Except WgError (List WireGuardConnection) :=
  let (tr, act) := getActiveConnections w
  match act with
  | .error e => (tr, .error e)
  | .ok activeConnection =>
      (tr, .ok ((getAllConnections w).map
        (fun i => ⟨i, activeConnection.contains i⟩)))

/-- Embedding of `getConnection`: the first configured tunnel with the
given name (`lo.Find`), or the `failed to find connection` error. -/
def getConnection (w : World) (name : String) :
    List Invocation × Except WgError WireGuardConnection :=
  let (tr, cs) := GetConnections w
  (tr,
   match cs with
   | .error e => .error e
   | .ok allConnections =>
       match allConnections.find? (fun dev => dev.Name == name) with
       | some connection => .ok connection
       | none => .error (.notFound name))

/-- Embedding of `stopActiveConnections`: `wg-quick down` each active
connection in order, concatenating the combined outputs; abort on the
first failure, discarding all output accumulated so far (`return nil, err`). -/
def stopActiveConnections (w : World) :
    List WireGuardConnection → List Invocation × Except WgError String
  | [] => ([], .ok "")
  | activeConnection :: rest =>
      let (out, err) := w.wgQuickDownResult activeConnection.Name
      match err with
      | some e => ([.wgQuickDown activeConnection.Name], .error (.cmdFailed e))
      | none =>
          let (tr, r) := stopActiveConnections w rest
          (.wgQuickDown activeConnection.Name :: tr, r.map (fun o => out ++ o))

/-- Embedding of `startConnection`: an already-active target is a no-op
(`return nil, nil`); otherwise `wg-quick up` it, discarding the combined
output on failure (`return nil, err`). -/
def startConnection (w : World) (connection : WireGuardConnection) :
    List Invocation × Except WgError String :=
  if connection.Active then ([], .ok "")
  else
    let (output, err) := w.wgQuickUpResult connection.Name
    match err with
    | some e => ([.wgQuickUp connection.Name], .error (.cmdFailed e))
    | none => ([.wgQuickUp connection.Name], .ok output)

/-- Embedding of `ToggleConnection`: resolve all connections and the active
subset, resolve the target, stop every active connection, start the
target, and return the concatenated outputs. -/
def ToggleConnection (w : World) (name : String) :
    List Invocation × Except WgError String :=
  let (tr1, conns) := GetConnections w
  match conns with
  | .error e => (tr1, .error e)
  | .ok allConnections =>
      let activeConnections := allConnections.filter (fun i => i.Active)
      let (tr2, conn) := getConnection w name
      match conn with
      | .error e => (tr1 ++ tr2, .error e)
      | .ok connection =>
          let (tr3, stopRes) := stopActiveConnections w activeConnections
          match stopRes with
          | .error e => (tr1 ++ tr2 ++ tr3, .error e)
          | .ok output =>
              let (tr4, startRes) := startConnection w connection
              match startRes with
              | .error e => (tr1 ++ tr2 ++ tr3 ++ tr4, .error e)
              | .ok startOutput =>
                  (tr1 ++ tr2 ++ tr3 ++ tr4, .ok (output ++ startOutput))

/-- The filtering/labelling step of `GetStatus` on one (untrimmed) line of
probe output, mirroring the `lo.FilterMap` body. -/
def statusFilterLine (line : String) : Option String :=
  let line := goTrimSpace line
  if goContains line "interface" then
    some ("Connection: " ++ goTrimPrefixStr line "interface:")
  else if goContains line "latest handshake" then
    some ("Latest Handshake: " ++ goTrimPrefixStr line "latest handshake:")
  else if goContains line "transfer" then
    some ("Transfer: " ++ goTrimPrefixStr line "transfer:")
  else none

/-- The pure summary step of `GetStatus`: extract the labelled lines. -/
def summaryLines (output : String) : List String :=
  (splitLines output).filterMap statusFilterLine

/-- Embedding of `GetStatus`: probe `wg show`, extract the labelled lines,
append `"Connection starting..."` when the count is not a multiple of 3,
and join with newlines. -/
def GetStatus (w : World) : List Invocation × Except WgError String :=
  let (tr, st) := showStatus w
  (tr,
   st.map (fun output =>
     let status := summaryLines output
     let status :=
       if status.length % 3 ≠ 0 then status ++ ["Connection starting..."] else status
     goJoin status "\n"))

/-! ## Concrete fixtures used by witnesses and counterexamples -/

/-- The session store obtained by creating one session in the empty store at
time 0 with an all-zero entropy read. -/
def smC5 : SessionManager :=
  ⟨fun k => if k = hexEncode (List.replicate 32 0) then some ⟨(0 : Int) + hourNs⟩
    else emptySessionManager.sessions k⟩

/-- A concrete world: tunnels `home` and `office` configured, `home` the sole
active tunnel, all external commands succeeding. -/
def wWit : World where
  confFiles := ["/etc/wireguard/home.conf", "/etc/wireguard/office.conf"]
  wgShowResult := Except.ok "interface: home"
  wgQuickDownResult := fun _ => ("home down\n", none)
  wgQuickUpResult := fun _ => ("office up\n", none)

/-- Raw probe output with one complete interface/handshake/transfer triple. -/
def sampleTriple : String :=
  "interface: home\n  public key: AbC=\n  listening port: 51820\n\npeer: XyZ=\n  endpoint: 10.0.0.1:51820\n  latest handshake: 1 minute, 3 seconds ago\n  transfer: 1.21 MiB received, 1.00 MiB sent"

/-- Raw probe output of a tunnel mid-handshake: only two extractable lines. -/
def samplePartial : String :=
  "interface: home\n  latest handshake: 28 seconds ago"

/-- A world whose probe output is `sampleTriple`. -/
def wStatusWit : World where
  confFiles := ["/etc/wireguard/home.conf"]
  wgShowResult := Except.ok sampleTriple
  wgQuickDownResult := fun _ => ("", none)
  wgQuickUpResult := fun _ => ("", none)

/-- A world where activating any tunnel fails with combined output
`BOOM: address already in use` and error `exit status 1`. -/
def wBoomA : World where
  confFiles := ["/etc/wireguard/home.conf", "/etc/wireguard/office.conf"]
  wgShowResult := Except.ok "interface: home"
  wgQuickDownResult := fun _ => ("home down\n", none)
  wgQuickUpResult := fun _ => ("BOOM: address already in use", some "exit status 1")

/-- Identical to `wBoomA` except the failing activation's combined output is
empty. -/
def wBoomB : World where
  confFiles := ["/etc/wireguard/home.conf", "/etc/wireguard/office.conf"]
  wgShowResult := Except.ok "interface: home"
  wgQuickDownResult := fun _ => ("home down\n", none)
  wgQuickUpResult := fun _ => ("", some "exit status 1")

/-! ## Shared helper lemmas -/

/-- When the probe succeeds, `GetConnections` is one `wg show` invocation and
maps each inventory name to a connection flagged by membership in the parsed
active list. -/
lemma getConnections_of_show (w : World) (s : String) (h : w.wgShowResult = Except.ok s) :
    GetConnections w = ([Invocation.wgShow],
      Except.ok ((getAllConnections w).map
        (fun i => WireGuardConnection.mk i ((parseActiveNames s).contains i)))) := by
  simp [GetConnections, getActiveConnections, showStatus, h, Except.map]

/-- Searching a list for an element it contains finds that element. -/
lemma find?_self_of_mem (l : List String) (a : String) (h : a ∈ l) :
    l.find? (fun i => i == a) = some a := by
  induction l with
  | nil => cases h
  | cons x xs ih =>
    by_cases hx : x = a
    · subst hx; simp [List.find?]
    · have hm : a ∈ xs := by
        rcases List.mem_cons.mp h with h1 | h1
        · exact absurd h1.symm hx
        · exact h1
      rw [List.find?_cons_of_neg _ (by simpa using hx), ih hm]

/-- Filtering the mapped connection list by the `Active` flag is the mapped
filtering of the inventory by active-list membership. -/
lemma active_filter (inv act : List String) :
    ((inv.map (fun i => WireGuardConnection.mk i (act.contains i))).filter
        (fun i => i.Active))
      = (inv.filter (fun i => act.contains i)).map
          (fun i => WireGuardConnection.mk i (act.contains i)) := by
  rw [List.filter_map]; rfl

/-- Finding a connection by name in the mapped connection list is finding the
name in the inventory. -/
lemma find?_name (inv act : List String) (n : String) :
    ((inv.map (fun i => WireGuardConnection.mk i (act.contains i))).find?
        (fun dev => dev.Name == n))
      = (inv.find? (fun i => i == n)).map
          (fun i => WireGuardConnection.mk i (act.contains i)) := by
  rw [List.find?_map]; rfl

/-- A probe invocation is not an activate invocation. -/
lemma isUp_show : Invocation.wgShow.isUp = false := rfl

/-- A deactivate invocation is not an activate invocation. -/
lemma isUp_downInv (m : String) : (Invocation.wgQuickDown m).isUp = false := rfl

/-- An activate invocation is an activate invocation. -/
lemma isUp_upInv (m : String) : (Invocation.wgQuickUp m).isUp = true := rfl

/-- A probe invocation is not a deactivate invocation. -/
lemma isDown_show : Invocation.wgShow.isDown = false := rfl

/-- A deactivate invocation is a deactivate invocation. -/
lemma isDown_downInv (m : String) : (Invocation.wgQuickDown m).isDown = true := rfl

/-- An activate invocation is not a deactivate invocation. -/
lemma isDown_upInv (m : String) : (Invocation.wgQuickUp m).isDown = false := rfl

/-- When every deactivation succeeds, `stopActiveConnections` invokes
`wg-quick down` once per connection, in list order, and returns some
combined output. -/
lemma stopActive_all_ok (w : World) (cs : List WireGuardConnection)
    (h : ∀ c ∈ cs, (w.wgQuickDownResult c.Name).2 = none) :
    (stopActiveConnections w cs).1 = cs.map (fun c => Invocation.wgQuickDown c.Name) ∧
    ∃ o, (stopActiveConnections w cs).2 = Except.ok o := by
  induction cs with
  | nil => exact ⟨rfl, "", rfl⟩
  | cons c rest ih =>
    obtain ⟨h1, o, h2⟩ := ih (fun x hx => h x (List.mem_cons_of_mem c hx))
    have hc : (w.wgQuickDownResult c.Name).2 = none := h c (List.mem_cons_self c rest)
    cases hd : w.wgQuickDownResult c.Name with
    | mk out err =>
      rw [hd] at hc
      simp only at hc
      subst hc
      cases hsr : stopActiveConnections w rest with
      | mk tr r =>
        rw [hsr] at h1 h2
        simp only at h1 h2
        subst h1 h2
        constructor
        · simp only [stopActiveConnections, hd, hsr, List.map_cons]
        · exact ⟨out ++ o, by simp only [stopActiveConnections, hd, hsr, Except.map]⟩

/-! ## Claim theorems -/

/-- Claim C6 — for every store state and token, `invalidate(t)` followed by
`validate(t)` returns false, and `invalidate` is idempotent: deleting twice
leaves the same state as deleting once.  `DeleteSession` is a total
function, so invoking it on an absent token succeeds (without error) by
construction, and the universal quantification over `sm` covers the
present-unexpired, present-expired and absent cases alike. -/
theorem deleteSession_invalidate_idempotent (sm : SessionManager) (t : String) (now : Int) :
    (ValidateSession (DeleteSession sm t) now t).1.2 = false ∧
    DeleteSession (DeleteSession sm t) t = DeleteSession sm t := by
  constructor
  · simp [ValidateSession, DeleteSession]
  · show SessionManager.mk _ = SessionManager.mk _
    congr 1
    funext k
    by_cases h : k = t <;> simp [DeleteSession, h]

/-- Claim C10 — `validate` leaves the session store unchanged for every store
state, time and token (present, absent, or expired-but-present): the Go
method only reads the map under a shared lock, so in particular it never
evicts an expired entry; expired entries are removed only by
`DeleteSession` or the periodic `cleanupExpiredSessionsTick` sweep. -/
theorem validateSession_frame (sm : SessionManager) (now : Int) (t : String) :
    (ValidateSession sm now t).2 = sm := by
  unfold ValidateSession
  cases h : sm.sessions t
  · simp
  · simp only []
    split <;> rfl

/-- Claim C5, counterexample — the claim asserts `validate` returns false at
the instant `now` equals `expiresAt`; on the code it returns true there:
for the session created at time 0 (expiry `0 + 1 hour`), validation at
exactly the expiry instant succeeds, because Go's `time.Now().After` is a
strict comparison. -/
theorem validateSession_boundary_counterexample :
    CreateSession emptySessionManager 0 (Except.ok (List.replicate 32 0))
        = Except.ok (hexEncode (List.replicate 32 0), (0 : Int) + hourNs, smC5) ∧
    (ValidateSession smC5 ((0 : Int) + hourNs) (hexEncode (List.replicate 32 0))).1.2 = true := by
  exact ⟨rfl, by decide⟩

/-- Claim C5, amended — for every token created via `create` with expiry
`expiresAt`, `validate` returns true at every time at or before
`expiresAt` and false at every time strictly after it. -/
theorem validateSession_expiry_spec (sm : SessionManager) (now0 : Int) (bs : List Nat)
    (tok : String) (exp : Int) (sm' : SessionManager) (t : Int)
    (hc : CreateSession sm now0 (Except.ok bs) = Except.ok (tok, exp, sm')) :
    (t ≤ exp → (ValidateSession sm' t tok).1.2 = true) ∧
    (exp < t → (ValidateSession sm' t tok).1.2 = false) := by
  simp only [CreateSession, generateSecureToken, Except.ok.injEq, Prod.mk.injEq] at hc
  obtain ⟨h1, h2, h3⟩ := hc
  subst h1 h2 h3
  constructor
  · intro ht
    simp [ValidateSession, not_lt.mpr ht]
  · intro ht
    simp [ValidateSession, ht]

/-- Claim C5, witness — `validateSession_expiry_spec` applied to the session
created in the empty store at time 0: validation is true at the expiry
instant itself and false one nanosecond later. -/
theorem validateSession_expiry_witness :
    (CreateSession emptySessionManager 0 (Except.ok (List.replicate 32 0))
        = Except.ok (hexEncode (List.replicate 32 0), (0 : Int) + hourNs, smC5)) ∧
    (ValidateSession smC5 ((0 : Int) + hourNs) (hexEncode (List.replicate 32 0))).1.2 = true ∧
    (ValidateSession smC5 ((0 : Int) + hourNs + 1) (hexEncode (List.replicate 32 0))).1.2 = false :=
  ⟨rfl,
   (validateSession_expiry_spec emptySessionManager 0 (List.replicate 32 0) _ _ smC5 _ rfl).1
     (le_refl _),
   (validateSession_expiry_spec emptySessionManager 0 (List.replicate 32 0) _ _ smC5 _ rfl).2
     (by omega)⟩

set_option maxRecDepth 100000 in
/-- Claim C9 — `hash` is deterministic, equals the two-round digest
`hex(H(hex(H(p))))` with `H` = SHA-256, and `verify(p, hash(p))` always
returns true; additionally the embedding reproduces the pi-hole double
digest of `"password"`, tying the embedded `H` to real SHA-256. -/
theorem generatePasswordHash_spec (p : String) :
    GeneratePasswordHash p = GeneratePasswordHash p ∧
    GeneratePasswordHash p
      = hexEncode (sha256Bytes (strBytes (hexEncode (sha256Bytes (strBytes p))))) ∧
    ValidatePassword p (GeneratePasswordHash p) = true ∧
    GeneratePasswordHash "password"
      = "113459eb7bb31bddee85ade5230d6ad5d8b2fb52879e00a84ff6ae1067a210d3" :=
  ⟨rfl, rfl, by simp [ValidatePassword], by decide⟩

/-- Claim C3 — when the probe succeeds, `GetConnections` returns exactly one
`WireGuardConnection` per inventory entry, in the inventory's order (their
names, in order, are the inventory), each flagged active iff its name
appears in the prober's active-name list. -/
theorem getConnections_inventory_spec (w : World) (s : String)
    (h : w.wgShowResult = Except.ok s) :
    ∃ cs, (GetConnections w).2 = Except.ok cs ∧
      cs.map (fun c => c.Name) = getAllConnections w ∧
      ∀ c ∈ cs, (c.Active = true ↔ c.Name ∈ parseActiveNames s) := by
  refine ⟨_, by rw [getConnections_of_show w s h], ?_, ?_⟩
  · rw [List.map_map]; exact List.map_id _
  · intro c hc
    rcases List.mem_map.mp hc with ⟨i, _, rfl⟩
    simp

/-- Claim C3, witness — `getConnections_inventory_spec` at the concrete world
with inventory `[home, office]` and active list `[home]`. -/
theorem getConnections_inventory_witness :
    (wWit.wgShowResult = Except.ok "interface: home") ∧
    (∃ cs, (GetConnections wWit).2 = Except.ok cs ∧
      cs.map (fun c => c.Name) = getAllConnections wWit ∧
      ∀ c ∈ cs, (c.Active = true ↔ c.Name ∈ parseActiveNames "interface: home")) :=
  ⟨rfl, getConnections_inventory_spec wWit "interface: home" rfl⟩

/-- Claim C2, amended — toggling a name absent from the inventory always
fails and issues zero activate/deactivate invocations; when the status
probe succeeds, the failure is specifically the NotFound error and the
invocation trace is exactly two `wg show` probes (so, against the claim as
stated, the number of external invocations is not zero). -/
theorem toggleConnection_unknown_spec (w : World)
    (hn : "unknown" ∉ getAllConnections w) :
    (ToggleConnection w "unknown").1.filter (fun i => i.isUpDown) = [] ∧
    (∃ e, (ToggleConnection w "unknown").2 = Except.error e) ∧
    (∀ s, w.wgShowResult = Except.ok s →
      (ToggleConnection w "unknown").1 = [Invocation.wgShow, Invocation.wgShow] ∧
      (ToggleConnection w "unknown").2 = Except.error (WgError.notFound "unknown")) := by
  cases hs : w.wgShowResult with
  | error e =>
    have hT : ToggleConnection w "unknown"
        = ([Invocation.wgShow], Except.error (WgError.execShow e)) := by
      simp [ToggleConnection, GetConnections, getActiveConnections, showStatus, hs, Except.map]
    rw [hT]
    refine ⟨rfl, ⟨_, rfl⟩, ?_⟩
    intro s h
    cases h
  | ok s =>
    have hGC := getConnections_of_show w s hs
    have hFind : ((getAllConnections w).map
        (fun i => WireGuardConnection.mk i ((parseActiveNames s).contains i))).find?
          (fun dev => dev.Name == "unknown") = none := by
      rw [find?_name]
      have : (getAllConnections w).find? (fun i => i == "unknown") = none := by
        rw [List.find?_eq_none]
        intro x hx
        simp only [beq_iff_eq]
        intro hxe; exact hn (hxe ▸ hx)
      rw [this]; rfl
    have hT : ToggleConnection w "unknown"
        = ([Invocation.wgShow, Invocation.wgShow],
           Except.error (WgError.notFound "unknown")) := by
      simp only [ToggleConnection, getConnection, hGC, hFind]
      rfl
    rw [hT]
    exact ⟨rfl, ⟨_, rfl⟩, fun _ _ => ⟨rfl, rfl⟩⟩

/-- Claim C2, counterexample — the claim asserts zero external invocations;
on the concrete world with inventory `[home, office]` the toggle of
`unknown` fails with the NotFound error but its invocation trace is two
`wg show` probes, which is not empty. -/
theorem toggleConnection_unknown_counterexample :
    (ToggleConnection wWit "unknown").1 = [Invocation.wgShow, Invocation.wgShow] ∧
    (ToggleConnection wWit "unknown").1 ≠ [] ∧
    (ToggleConnection wWit "unknown").2 = Except.error (WgError.notFound "unknown") :=
  ⟨by decide, by decide, rfl⟩

/-- Claim C2, witness — `toggleConnection_unknown_spec` at the concrete world
with inventory `[home, office]`. -/
theorem toggleConnection_unknown_witness :
    ("unknown" ∉ getAllConnections wWit) ∧
    (ToggleConnection wWit "unknown").1.filter (fun i => i.isUpDown) = [] ∧
    (∃ e, (ToggleConnection wWit "unknown").2 = Except.error e) :=
  ⟨by decide, (toggleConnection_unknown_spec wWit (by decide)).1,
   (toggleConnection_unknown_spec wWit (by decide)).2.1⟩

/-- Claim C4 — when the probe succeeds, `GetStatus` returns the extracted
labelled lines (in source order) with exactly one synthetic
`Connection starting...` line appended iff their count is not a multiple
of 3; in particular a complete interface/handshake/transfer triple yields
exactly the 3 labelled lines (count divisible by 3, no synthetic line),
and a 2-line mid-handshake input yields 2 extracted lines plus the one
synthetic line, 3 in total. -/
theorem getStatus_summary_spec (w : World) (s : String)
    (h : w.wgShowResult = Except.ok s) :
    (GetStatus w).2 = Except.ok (goJoin
        (summaryLines s ++
          (if (summaryLines s).length % 3 = 0 then [] else ["Connection starting..."]))
        "\n") ∧
    summaryLines sampleTriple
      = ["Connection:  home", "Latest Handshake:  1 minute, 3 seconds ago",
         "Transfer:  1.21 MiB received, 1.00 MiB sent"] ∧
    ((summaryLines sampleTriple).length = 3 ∧
      (summaryLines sampleTriple).length % 3 = 0) ∧
    ((summaryLines samplePartial).length = 2 ∧
      (summaryLines samplePartial ++ ["Connection starting..."]).length = 3) := by
  refine ⟨?_, by decide, by decide, by decide⟩
  simp only [GetStatus, showStatus, h, Except.map]
  by_cases h3 : (summaryLines s).length % 3 = 0
  · simp [h3]
  · simp [h3]

/-- Claim C4, witness — `getStatus_summary_spec` at the world probing the
complete-triple output. -/
theorem getStatus_summary_witness :
    (wStatusWit.wgShowResult = Except.ok sampleTriple) ∧
    (GetStatus wStatusWit).2 = Except.ok (goJoin
        (summaryLines sampleTriple ++
          (if (summaryLines sampleTriple).length % 3 = 0 then []
           else ["Connection starting..."]))
        "\n") :=
  ⟨rfl, (getStatus_summary_spec wStatusWit sampleTriple rfl).1⟩

/-- Claim C1 — when `home` is the sole active configured tunnel, `office` is
configured, and both external commands succeed, `toggle("office")`
performs exactly one deactivate invocation (for `home`) followed by
exactly one activate invocation (for `office`) — the trace filtered to
activate/deactivate invocations is exactly that two-element sequence —
and returns the deactivation output followed by the activation output. -/
theorem toggleConnection_switch_spec (w : World) (s o1 o2 : String)
    (hshow : w.wgShowResult = Except.ok s)
    (hsole : (getAllConnections w).filter
        (fun i => (parseActiveNames s).contains i) = ["home"])
    (hoff : "office" ∈ getAllConnections w)
    (hdown : w.wgQuickDownResult "home" = (o1, none))
    (hup : w.wgQuickUpResult "office" = (o2, none)) :
    (ToggleConnection w "office").2 = Except.ok (o1 ++ o2) ∧
    (ToggleConnection w "office").1.filter (fun i => i.isUpDown)
      = [Invocation.wgQuickDown "home", Invocation.wgQuickUp "office"] := by
  have hGC := getConnections_of_show w s hshow
  have hhomeAct : (parseActiveNames s).contains "home" = true := by
    have hm : "home" ∈ (getAllConnections w).filter
        (fun i => (parseActiveNames s).contains i) := by rw [hsole]; simp
    exact (List.mem_filter.mp hm).2
  have hhomeMem : "home" ∈ parseActiveNames s := by simpa using hhomeAct
  have hoffAct : (parseActiveNames s).contains "office" = false := by
    cases hcc : (parseActiveNames s).contains "office"
    · rfl
    · have hm : "office" ∈ (getAllConnections w).filter
          (fun i => (parseActiveNames s).contains i) := List.mem_filter.mpr ⟨hoff, hcc⟩
      rw [hsole] at hm
      simp at hm
  have hoffMem : "office" ∉ parseActiveNames s := by simpa using hoffAct
  have hActive : ((getAllConnections w).map
      (fun i => WireGuardConnection.mk i ((parseActiveNames s).contains i))).filter
        (fun i => i.Active) = [⟨"home", true⟩] := by
    rw [active_filter, hsole]
    simp [hhomeMem]
  have hFind : ((getAllConnections w).map
      (fun i => WireGuardConnection.mk i ((parseActiveNames s).contains i))).find?
        (fun dev => dev.Name == "office") = some ⟨"office", false⟩ := by
    rw [find?_name, find?_self_of_mem _ _ hoff]
    simp [hoffMem]
  have hStop : stopActiveConnections w [⟨"home", true⟩]
      = ([Invocation.wgQuickDown "home"], Except.ok o1) := by
    simp [stopActiveConnections, hdown, Except.map]
  have hStart : startConnection w ⟨"office", false⟩
      = ([Invocation.wgQuickUp "office"], Except.ok o2) := by
    simp [startConnection, hup]
  have hT : ToggleConnection w "office"
      = ([Invocation.wgShow, Invocation.wgShow, Invocation.wgQuickDown "home",
          Invocation.wgQuickUp "office"], Except.ok (o1 ++ o2)) := by
    simp only [ToggleConnection, getConnection, hGC, hFind, hActive, hStop, hStart]
    rfl
  rw [hT]
  exact ⟨rfl, rfl⟩

/-- Claim C1, witness — `toggleConnection_switch_spec` at the concrete world
with inventory `[home, office]`, active list `[home]`, and succeeding
commands. -/
theorem toggleConnection_switch_witness :
    (wWit.wgShowResult = Except.ok "interface: home") ∧
    (ToggleConnection wWit "office").2 = Except.ok ("home down\n" ++ "office up\n") ∧
    (ToggleConnection wWit "office").1.filter (fun i => i.isUpDown)
      = [Invocation.wgQuickDown "home", Invocation.wgQuickUp "office"] :=
  ⟨rfl,
   (toggleConnection_switch_spec wWit "interface: home" "home down\n" "office up\n"
      rfl (by decide) (by decide) rfl rfl).1,
   (toggleConnection_switch_spec wWit "interface: home" "home down\n" "office up\n"
      rfl (by decide) (by decide) rfl rfl).2⟩

/-- Claim C7 — when `home` is the sole active configured tunnel and its
deactivation succeeds, `toggle("home")` performs exactly one deactivate
invocation (for `home`) and zero activate invocations (the resolved target
was already active, so activation is skipped as an idempotent no-op), and
returns the deactivation output; since the only active tunnel was
deactivated and nothing was activated, the net result is no active
tunnel. -/
theorem toggleConnection_self_spec (w : World) (s o1 : String)
    (hshow : w.wgShowResult = Except.ok s)
    (hsole : (getAllConnections w).filter
        (fun i => (parseActiveNames s).contains i) = ["home"])
    (hdown : w.wgQuickDownResult "home" = (o1, none)) :
    (ToggleConnection w "home").2 = Except.ok o1 ∧
    (ToggleConnection w "home").1.filter (fun i => i.isDown)
      = [Invocation.wgQuickDown "home"] ∧
    (ToggleConnection w "home").1.filter (fun i => i.isUp) = [] := by
  have hGC := getConnections_of_show w s hshow
  have hm : "home" ∈ (getAllConnections w).filter
      (fun i => (parseActiveNames s).contains i) := by rw [hsole]; simp
  have hhomeAct : (parseActiveNames s).contains "home" = true := (List.mem_filter.mp hm).2
  have hhomeMem : "home" ∈ parseActiveNames s := by simpa using hhomeAct
  have hmem : "home" ∈ getAllConnections w := (List.mem_filter.mp hm).1
  have hActive : ((getAllConnections w).map
      (fun i => WireGuardConnection.mk i ((parseActiveNames s).contains i))).filter
        (fun i => i.Active) = [⟨"home", true⟩] := by
    rw [active_filter, hsole]
    simp [hhomeMem]
  have hFind : ((getAllConnections w).map
      (fun i => WireGuardConnection.mk i ((parseActiveNames s).contains i))).find?
        (fun dev => dev.Name == "home") = some ⟨"home", true⟩ := by
    rw [find?_name, find?_self_of_mem _ _ hmem]
    simp [hhomeMem]
  have hStop : stopActiveConnections w [⟨"home", true⟩]
      = ([Invocation.wgQuickDown "home"], Except.ok o1) := by
    simp [stopActiveConnections, hdown, Except.map]
  have hStart : startConnection w ⟨"home", true⟩ = ([], Except.ok "") := by
    simp [startConnection]
  have hT : ToggleConnection w "home"
      = ([Invocation.wgShow, Invocation.wgShow, Invocation.wgQuickDown "home"],
         Except.ok o1) := by
    simp only [ToggleConnection, getConnection, hGC, hFind, hActive, hStop, hStart,
      List.append_nil, String.append_empty]
    rfl
  rw [hT]
  exact ⟨rfl, rfl, rfl⟩

/-- Claim C7, witness — `toggleConnection_self_spec` at the concrete world
with inventory `[home, office]` and active list `[home]`. -/
theorem toggleConnection_self_witness :
    (wWit.wgShowResult = Except.ok "interface: home") ∧
    (ToggleConnection wWit "home").2 = Except.ok "home down\n" ∧
    (ToggleConnection wWit "home").1.filter (fun i => i.isDown)
      = [Invocation.wgQuickDown "home"] ∧
    (ToggleConnection wWit "home").1.filter (fun i => i.isUp) = [] := by
  refine ⟨rfl, ?_, ?_, ?_⟩
  · exact (toggleConnection_self_spec wWit "interface: home" "home down\n"
      rfl (by decide) rfl).1
  · exact (toggleConnection_self_spec wWit "interface: home" "home down\n"
      rfl (by decide) rfl).2.1
  · exact (toggleConnection_self_spec wWit "interface: home" "home down\n"
      rfl (by decide) rfl).2.2

/-- Claim C8, amended — for every toggle whose target `n` is configured but
not active, in which the deactivation of every currently active configured
tunnel succeeds and the activation of the target fails, the toggle
surfaces the activation failure as the external command's error value, but
discards the raw output bytes of the failed command (the conclusion is the
same for every value of `out`, so neither the returned output nor the
error contains it), and the system is left with zero active tunnels: the
deactivate-invocation trace is exactly one `wg-quick down` per active
configured tunnel, in listing order — this covers zero and several
deactivations alike — and the only activate invocation is the single
failed attempt, so no rollback re-activation of the deactivated tunnels
occurs. -/
theorem toggleConnection_activation_failure_spec (w : World) (s n out e : String)
    (hshow : w.wgShowResult = Except.ok s)
    (hconf : n ∈ getAllConnections w)
    (hnotact : n ∉ parseActiveNames s)
    (hdown : ∀ a ∈ (getAllConnections w).filter
        (fun i => (parseActiveNames s).contains i), (w.wgQuickDownResult a).2 = none)
    (hup : w.wgQuickUpResult n = (out, some e)) :
    (ToggleConnection w n).2 = Except.error (WgError.cmdFailed e) ∧
    (ToggleConnection w n).1.filter (fun i => i.isUp) = [Invocation.wgQuickUp n] ∧
    (ToggleConnection w n).1.filter (fun i => i.isDown)
      = ((getAllConnections w).filter
          (fun i => (parseActiveNames s).contains i)).map Invocation.wgQuickDown := by
  have hGC := getConnections_of_show w s hshow
  have hFind : ((getAllConnections w).map
      (fun i => WireGuardConnection.mk i ((parseActiveNames s).contains i))).find?
        (fun dev => dev.Name == n) = some ⟨n, false⟩ := by
    rw [find?_name, find?_self_of_mem _ _ hconf]
    simp [hnotact]
  have hActive := active_filter (getAllConnections w) (parseActiveNames s)
  obtain ⟨hTr, o, hRes⟩ := stopActive_all_ok w
      (((getAllConnections w).filter (fun i => (parseActiveNames s).contains i)).map
        (fun i => WireGuardConnection.mk i ((parseActiveNames s).contains i)))
      (by
        intro c hc
        rcases List.mem_map.mp hc with ⟨i, hi, rfl⟩
        exact hdown i hi)
  have hStart : startConnection w ⟨n, false⟩
      = ([Invocation.wgQuickUp n], Except.error (WgError.cmdFailed e)) := by
    simp [startConnection, hup]
  have hT : ToggleConnection w n
      = ([Invocation.wgShow] ++ [Invocation.wgShow]
          ++ ((((getAllConnections w).filter
                (fun i => (parseActiveNames s).contains i)).map
                (fun i => WireGuardConnection.mk i ((parseActiveNames s).contains i))).map
              (fun c => Invocation.wgQuickDown c.Name))
          ++ [Invocation.wgQuickUp n],
         Except.error (WgError.cmdFailed e)) := by
    simp only [ToggleConnection, getConnection, hGC, hFind, hActive]
    cases hsr : stopActiveConnections w
        (((getAllConnections w).filter (fun i => (parseActiveNames s).contains i)).map
          (fun i => WireGuardConnection.mk i ((parseActiveNames s).contains i))) with
    | mk tr r =>
      rw [hsr] at hTr hRes
      simp only at hTr hRes
      subst hTr hRes
      simp only [hStart]
  rw [hT]
  refine ⟨rfl, ?_, ?_⟩
  · simp only [List.filter_append, List.filter_map]
    simp [isUp_show, isUp_downInv, isUp_upInv, Function.comp]
  · simp only [List.filter_append, List.filter_map]
    simp only [List.map_map]
    simp [isDown_show, isDown_downInv, isDown_upInv, Function.comp]

/-- Claim C8, counterexample — the claim asserts the activation failure is
reported verbatim including the raw output bytes of the failed command;
on the code those bytes are discarded: two worlds identical except for the
failed activation's combined output (`BOOM: address already in use`
versus empty) produce exactly the same toggle result, whose error carries
only the exit status. -/
theorem toggleConnection_output_discarded_counterexample :
    ToggleConnection wBoomA "office" = ToggleConnection wBoomB "office" ∧
    (ToggleConnection wBoomA "office").2 = Except.error (WgError.cmdFailed "exit status 1") ∧
    (wBoomA.wgQuickUpResult "office").1 = "BOOM: address already in use" ∧
    (wBoomB.wgQuickUpResult "office").1 = "" :=
  ⟨rfl, rfl, rfl, rfl⟩

/-- Claim C8, witness — `toggleConnection_activation_failure_spec` at the
concrete world whose activation fails with non-empty combined output. -/
theorem toggleConnection_activation_failure_witness :
    (wBoomA.wgQuickUpResult "office" = ("BOOM: address already in use", some "exit status 1")) ∧
    (ToggleConnection wBoomA "office").2 = Except.error (WgError.cmdFailed "exit status 1") ∧
    (ToggleConnection wBoomA "office").1.filter (fun i => i.isUp)
      = [Invocation.wgQuickUp "office"] ∧
    (ToggleConnection wBoomA "office").1.filter (fun i => i.isDown)
      = ((getAllConnections wBoomA).filter
          (fun i => (parseActiveNames "interface: home").contains i)).map
          Invocation.wgQuickDown := by
  refine ⟨rfl, ?_, ?_, ?_⟩
  · exact (toggleConnection_activation_failure_spec wBoomA "interface: home" "office"
      "BOOM: address already in use" "exit status 1"
      rfl (by decide) (by decide) (by decide) rfl).1
  · exact (toggleConnection_activation_failure_spec wBoomA "interface: home" "office"
      "BOOM: address already in use" "exit status 1"
      rfl (by decide) (by decide) (by decide) rfl).2.1
  · exact (toggleConnection_activation_failure_spec wBoomA "interface: home" "office"
      "BOOM: address already in use" "exit status 1"
      rfl (by decide) (by decide) (by decide) rfl).2.2

end WgPortal
